import Mathlib

/-!
Verification of the column-dropper script `src/data/convert.py`.

The script reads a CSV file from a hardcoded source path, drops the first
column (`df = df.iloc[:, 1:]`), writes the result to a hardcoded destination
path (`df.to_csv(output_file, index=False)`), and prints one confirmation
line naming the destination path.

The in-memory table and the column-dropping step are embedded directly from
the source.  The CSV reading/writing performed by the pandas library and the
file/console side effects are not part of this repository's sources; they
are modelled from the specification: plain comma-delimited text, first line
a header, one row per line, rows terminated by a line break, values copied
verbatim with no coercion, and a single linear load → transform → save →
report sequence.
-/

/-- Source path hardcoded in `convert.py` (line 4). -/
def input_file : String :=
  "C:/Users/dlisz/Desktop/Rust Projects/First Rust Project/my_project/src/data/2018-09-01-2024-Bitfinex_Spot-4h.csv"

/-- Destination path hardcoded in `convert.py` (line 5). -/
def output_file : String :=
  "C:/Users/dlisz/Desktop/Rust Projects/First Rust Project/my_project/src/data/2018-09-01-2024-Bitfinex_Spot-4h-puta.csv"

/-- An in-memory table: an ordered header of column names and an ordered
list of rows, each row an ordered list of cell values. -/
structure Table where
  header : List String
  rows : List (List String)
deriving DecidableEq

/-- Embeds `df = df.iloc[:, 1:]` (line 11 of `convert.py`): keep every
column at positional index ≥ 1, in the header and in every row. -/
def dropFirstColumn (t : Table) : Table :=
  ⟨t.header.drop 1, t.rows.map (fun r => r.drop 1)⟩

/-- Split a character list at every occurrence of the delimiter.  Always
returns at least one (possibly empty) piece. -/
def splitOnChar (d : Char) : List Char → List (List Char)
  | [] => [[]]
  | c :: cs =>
    if c = d then [] :: splitOnChar d cs
    else
      match splitOnChar d cs with
      | [] => [[c]]
      | f :: fs => (c :: f) :: fs

/-- Join character lists, placing the delimiter between consecutive pieces. -/
def joinWith (d : Char) : List (List Char) → List Char
  | [] => []
  | [f] => f
  | f :: g :: fs => f ++ d :: joinWith d (g :: fs)

/-- The fields of one comma-delimited line. -/
def csvFields (line : List Char) : List String :=
  (splitOnChar ',' line).map List.asString

/-- One comma-delimited line for a list of fields, written verbatim. -/
def csvLine (fields : List String) : List Char :=
  joinWith ',' (fields.map String.toList)

/-- Modelled from the spec: the `pd.read_csv(input_file)` step.  Input is
comma-delimited text; the first line is the header, subsequent lines are
data rows with the same field count as the header; blank lines carry no
data.  `none` models the fatal ParseError / empty-input error on malformed
content. -/
def parseCsv (content : String) : Option Table :=
  match (splitOnChar '\n' content.toList).filter (fun l => !l.isEmpty) with
  | [] => none
  | h :: rs =>
    let header := csvFields h
    let rows := rs.map csvFields
    if rows.all (fun r => r.length == header.length) then some ⟨header, rows⟩
    else none

/-- Modelled from the spec: the `df.to_csv(output_file, index=False)` step.
The header line followed by one line per data row, comma-delimited, each
line terminated by a line break, values written verbatim, and no row-index
column. -/
def writeCsv (t : Table) : String :=
  (joinWith '\n' ((csvLine t.header :: t.rows.map csvLine) ++ [[]])).asString

/-- A field that contains neither the field delimiter nor a line break, so
it survives a write/read round trip unchanged. -/
def plainField (s : String) : Bool :=
  s.toList.all (fun c => c != ',' && c != '\n')

/-- A valid input table as the spec constrains it: at least one column,
every row with the same field count as the header, and plain delimited-text
fields. -/
def validTable (t : Table) : Bool :=
  !t.header.isEmpty &&
    t.rows.all (fun r => r.length == t.header.length) &&
    t.header.all plainField &&
    t.rows.all (fun r => r.all plainField)

/-- An observable side effect of one run. -/
inductive Event where
  | readFile : String → Event
  | writeFile : String → String → Event
  | printLine : String → Event
deriving DecidableEq

/-- The confirmation line printed by `convert.py` (line 16). -/
def confirmationMessage : String :=
  "The first column has been removed and the updated file is saved as \x27" ++
    output_file ++ "\x27."

/-- The state after one run: the ordered trace of side effects, the
resulting file system (path → contents), and whether the process exited
normally. -/
structure RunState where
  events : List Event
  fs : String → Option String
  exitOk : Bool

/-- Modelled from the spec: one run of `convert.py` over a file system,
as the linear sequence load → transform → save → report.  A missing or
malformed source file is a fatal error before anything is written. -/
def runConvert (fs : String → Option String) : RunState :=
  match fs input_file with
  | none => ⟨[Event.readFile input_file], fs, false⟩
  | some content =>
    match parseCsv content with
    | none => ⟨[Event.readFile input_file], fs, false⟩
    | some df =>
      let out := writeCsv (dropFirstColumn df)
      ⟨[Event.readFile input_file, Event.writeFile output_file out,
          Event.printLine confirmationMessage],
        fun p => if p = output_file then some out else fs p, true⟩

/-- A file system holding the spec's three-line round-trip example at the
source path. -/
def exampleFs : String → Option String :=
  fun p => if p = input_file then some "A,B,C\n1,2,3\n4,5,6\n" else none

/-- The table parsed from the round-trip example. -/
def exampleTable : Table :=
  ⟨["A", "B", "C"], [["1", "2", "3"], ["4", "5", "6"]]⟩

/-- A file system holding a single-column input at the source path. -/
def singleColumnFs : String → Option String :=
  fun p => if p = input_file then some "A\n1\n2\n" else none


/-- Is an event a console print? -/
def isPrintEvent : Event → Bool
  | Event.printLine _ => true
  | _ => false

/-- Is an event a file write? -/
def isWriteEvent : Event → Bool
  | Event.writeFile _ _ => true
  | _ => false

/-- The path a read or write touches, or the text a print emits. -/
def eventPath : Event → String
  | Event.readFile p => p
  | Event.writeFile p _ => p
  | Event.printLine s => s

/-- `splitOnChar` always produces at least one piece. -/
theorem splitOnChar_ne_nil (d : Char) (l : List Char) : splitOnChar d l ≠ [] := by
  induction l with
  | nil => simp [splitOnChar]
  | cons c cs ih =>
    simp only [splitOnChar]
    split
    · simp
    · cases hs : splitOnChar d cs <;> simp

/-- Splitting after a leading non-delimiter character prepends it to the
first piece. -/
theorem splitOnChar_cons_ne (d c : Char) (cs : List Char) (h : c ≠ d)
    (x : List Char) (xs : List (List Char)) (hs : splitOnChar d cs = x :: xs) :
    splitOnChar d (c :: cs) = (c :: x) :: xs := by
  simp only [splitOnChar, if_neg h, hs]

/-- Splitting after a delimiter-free prefix prepends the prefix to the
first piece. -/
theorem splitOnChar_append_field (d : Char) (f l : List Char)
    (hf : ∀ c ∈ f, c ≠ d) (x : List Char) (xs : List (List Char))
    (hs : splitOnChar d l = x :: xs) :
    splitOnChar d (f ++ l) = (f ++ x) :: xs := by
  induction f with
  | nil => simpa using hs
  | cons c f ih =>
    have hc : c ≠ d := hf c (by simp)
    have hrec := ih (fun a ha => hf a (by simp [ha]))
    simpa using splitOnChar_cons_ne d c (f ++ l) hc _ _ hrec

/-- Splitting undoes joining, when every piece is delimiter-free. -/
theorem splitOnChar_joinWith (d : Char) (ps : List (List Char)) (h : ps ≠ [])
    (hf : ∀ f ∈ ps, ∀ c ∈ f, c ≠ d) :
    splitOnChar d (joinWith d ps) = ps := by
  induction ps with
  | nil => exact absurd rfl h
  | cons f ps ih =>
    cases ps with
    | nil =>
      have := splitOnChar_append_field d f [] (fun c hc => hf f (by simp) c hc)
        [] [] (by simp [splitOnChar])
      simpa [joinWith] using this
    | cons g gs =>
      have h1 : splitOnChar d (joinWith d (g :: gs)) = g :: gs :=
        ih (by simp) (fun a ha => hf a (List.mem_cons_of_mem f ha))
      have h2 : splitOnChar d (d :: joinWith d (g :: gs)) = [] :: g :: gs := by
        simp [splitOnChar, h1]
      have := splitOnChar_append_field d f (d :: joinWith d (g :: gs))
        (fun c hc => hf f (by simp) c hc) [] (g :: gs) h2
      simpa [joinWith] using this

/-- Every character of a join is the delimiter or comes from some piece. -/
theorem mem_joinWith (d : Char) (ps : List (List Char)) (c : Char)
    (h : c ∈ joinWith d ps) : c = d ∨ ∃ f ∈ ps, c ∈ f := by
  induction ps with
  | nil => simp [joinWith] at h
  | cons f ps ih =>
    cases ps with
    | nil => exact Or.inr ⟨f, by simp, by simpa [joinWith] using h⟩
    | cons g gs =>
      simp only [joinWith, List.mem_append, List.mem_cons] at h
      rcases h with h | h | h
      · exact Or.inr ⟨f, by simp, h⟩
      · exact Or.inl h
      · rcases ih (by simpa [joinWith] using h) with h | ⟨f2, hf2, hc2⟩
        · exact Or.inl h
        · exact Or.inr ⟨f2, List.mem_cons_of_mem f hf2, hc2⟩

/-- A line with at least two fields is never blank. -/
theorem csvLine_ne_nil_of_two (fields : List String)
    (h : 2 ≤ fields.length) : csvLine fields ≠ [] := by
  match fields with
  | [] => simp at h
  | [a] => simp at h
  | a :: b :: rest => simp [csvLine, joinWith]

/-- Reading one written line recovers the fields, when the field list is
nonempty and every field is plain. -/
theorem csvFields_csvLine (fields : List String) (h : fields ≠ [])
    (hf : ∀ f ∈ fields, plainField f = true) :
    csvFields (csvLine fields) = fields := by
  unfold csvFields csvLine
  rw [splitOnChar_joinWith ',' (fields.map String.toList) (by simpa using h)]
  · rw [List.map_map]
    have hid : List.map (List.asString ∘ String.toList) fields =
        List.map id fields :=
      List.map_congr_left (fun s _ => String.asString_toList s)
    rw [hid, List.map_id]
  · intro f hfm c hc
    obtain ⟨s, hs, rfl⟩ := List.mem_map.1 hfm
    have hp := hf s hs
    simp only [plainField, List.all_eq_true, Bool.and_eq_true, bne_iff_ne,
      ne_eq] at hp
    exact (hp c hc).1

/-- A line written from plain fields contains no line break. -/
theorem csvLine_no_newline (fields : List String)
    (hf : ∀ f ∈ fields, plainField f = true) :
    ∀ c ∈ csvLine fields, c ≠ '\n' := by
  intro c hc
  rcases mem_joinWith ',' (fields.map String.toList) c hc with h | ⟨f, hfm, hcf⟩
  · subst h; decide
  · obtain ⟨s, hs, rfl⟩ := List.mem_map.1 hfm
    have hp := hf s hs
    simp only [plainField, List.all_eq_true, Bool.and_eq_true, bne_iff_ne,
      ne_eq] at hp
    exact (hp c hcf).2

/-- Unpacking the conjuncts of `validTable`. -/
theorem validTable_parts (t : Table) (hv : validTable t = true) :
    t.header ≠ [] ∧ (∀ r ∈ t.rows, r.length = t.header.length) ∧
    (∀ f ∈ t.header, plainField f = true) ∧
    (∀ r ∈ t.rows, ∀ f ∈ r, plainField f = true) := by
  simp only [validTable, Bool.and_eq_true, List.all_eq_true, beq_iff_eq,
    Bool.not_eq_true', List.isEmpty_eq_false] at hv
  exact ⟨hv.1.1.1, hv.1.1.2, hv.1.2, hv.2⟩

/-- Reading a written valid table with at least two columns recovers the
table exactly. -/
theorem parseCsv_writeCsv (t : Table) (hv : validTable t = true)
    (h2 : 2 ≤ t.header.length) : parseCsv (writeCsv t) = some t := by
  obtain ⟨hne, hlen, hph, hpr⟩ := validTable_parts t hv
  have hsplit : splitOnChar '\n' (writeCsv t).toList =
      (csvLine t.header :: t.rows.map csvLine) ++ [[]] := by
    unfold writeCsv
    rw [List.toList_asString]
    apply splitOnChar_joinWith
    · simp
    · intro f hfm c hc
      rcases List.mem_append.1 hfm with hfm | hfm
      · rcases List.mem_cons.1 hfm with rfl | hfm
        · exact csvLine_no_newline t.header hph c hc
        · obtain ⟨r, hr, rfl⟩ := List.mem_map.1 hfm
          exact csvLine_no_newline r (hpr r hr) c hc
      · simp only [List.mem_singleton] at hfm
        subst hfm
        simp at hc
  have hfilter : ((csvLine t.header :: t.rows.map csvLine) ++ [[]]).filter
      (fun l => !l.isEmpty) = csvLine t.header :: t.rows.map csvLine := by
    rw [List.filter_append]
    have h1 : List.filter (fun l => !l.isEmpty) [([] : List Char)] = [] := by
      simp
    rw [h1, List.append_nil]
    apply List.filter_eq_self.2
    intro a ha
    rcases List.mem_cons.1 ha with rfl | ha
    · simpa using csvLine_ne_nil_of_two t.header h2
    · obtain ⟨r, hr, rfl⟩ := List.mem_map.1 ha
      have hl : r.length = t.header.length := hlen r hr
      simpa using csvLine_ne_nil_of_two r (by omega)
  have hhead : csvFields (csvLine t.header) = t.header :=
    csvFields_csvLine t.header hne hph
  have hrow : (t.rows.map csvLine).map csvFields = t.rows := by
    rw [List.map_map]
    have hcong : ∀ r ∈ t.rows, (csvFields ∘ csvLine) r = id r := by
      intro r hr
      have hlr := hlen r hr
      have hr0 : r ≠ [] := List.length_pos.1 (by omega)
      exact csvFields_csvLine r hr0 (hpr r hr)
    rw [List.map_congr_left hcong, List.map_id]
  unfold parseCsv
  rw [hsplit, hfilter]
  simp only [hhead, hrow]
  have hall : (t.rows.all fun r => r.length == t.header.length) = true := by
    rw [List.all_eq_true]
    intro r hr
    exact beq_iff_eq.2 (hlen r hr)
  rw [if_pos hall]

/-- Joining k+1 empty lines yields k line breaks. -/
theorem joinWith_replicate_nil (d : Char) (k : Nat) :
    joinWith d (List.replicate (k + 1) ([] : List Char)) =
      List.replicate k d := by
  induction k with
  | zero => simp [joinWith]
  | succ k ih =>
    have h2 : List.replicate (k + 1) ([] : List Char) =
        [] :: List.replicate k [] := List.replicate_succ ([] : List Char) k
    rw [List.replicate_succ, h2]
    show d :: joinWith d ([] :: List.replicate k []) = List.replicate (k + 1) d
    rw [← h2, ih, List.replicate_succ]

/-- A run whose source is missing fails after the read attempt, leaving the
file system untouched. -/
theorem runConvert_noRead (fs : String → Option String)
    (h : fs input_file = none) :
    runConvert fs = ⟨[Event.readFile input_file], fs, false⟩ := by
  unfold runConvert
  rw [h]

/-- A run whose source content does not parse fails, leaving the file
system untouched. -/
theorem runConvert_badParse (fs : String → Option String) (content : String)
    (h1 : fs input_file = some content) (h2 : parseCsv content = none) :
    runConvert fs = ⟨[Event.readFile input_file], fs, false⟩ := by
  simp only [runConvert, h1, h2]

/-- A run whose source parses performs exactly read, write, print, and
updates only the destination path. -/
theorem runConvert_success (fs : String → Option String) (content : String)
    (t : Table) (h1 : fs input_file = some content)
    (h2 : parseCsv content = some t) :
    runConvert fs =
      ⟨[Event.readFile input_file,
          Event.writeFile output_file (writeCsv (dropFirstColumn t)),
          Event.printLine confirmationMessage],
        fun p => if p = output_file then some (writeCsv (dropFirstColumn t))
          else fs p,
        true⟩ := by
  simp only [runConvert, h1, h2]

/-- C1: for every valid input table (at least one column) with N rows, the
table written to the destination has exactly N rows and exactly one fewer
column than the input table. -/
theorem c1_row_and_column_counts (fs : String → Option String)
    (content : String) (t : Table) (h1 : fs input_file = some content)
    (h2 : parseCsv content = some t) (h3 : validTable t = true) :
    (runConvert fs).fs output_file = some (writeCsv (dropFirstColumn t)) ∧
    (dropFirstColumn t).rows.length = t.rows.length ∧
    (dropFirstColumn t).header.length + 1 = t.header.length := by
  obtain ⟨hne, _, _, _⟩ := validTable_parts t h3
  rw [runConvert_success fs content t h1 h2]
  refine ⟨?_, ?_, ?_⟩
  · show (if output_file = output_file then some (writeCsv (dropFirstColumn t))
        else fs output_file) = some (writeCsv (dropFirstColumn t))
    rw [if_pos rfl]
  · simp [dropFirstColumn]
  · have hpos : 0 < t.header.length := List.length_pos.2 hne
    simp only [dropFirstColumn, List.length_drop]
    omega

/-- C1 witness: the shape invariant at the spec's three-by-three example. -/
theorem c1_witness :
    (runConvert exampleFs).fs output_file =
      some (writeCsv (dropFirstColumn exampleTable)) ∧
    (dropFirstColumn exampleTable).rows.length = exampleTable.rows.length ∧
    (dropFirstColumn exampleTable).header.length + 1 =
      exampleTable.header.length :=
  c1_row_and_column_counts exampleFs "A,B,C\n1,2,3\n4,5,6\n" exampleTable
    (by decide) (by decide) (by decide)

/-- C2: the output's column-name sequence equals the input's with the
element at index 0 removed, so the remaining columns keep their original
relative order with no reordering, renaming or insertion. -/
theorem c2_column_names (t : Table) (h : 1 ≤ t.header.length) :
    (dropFirstColumn t).header = t.header.eraseIdx 0 := by
  cases ht : t.header with
  | nil => rw [ht] at h; simp at h
  | cons a l => simp [dropFirstColumn, ht]

/-- C2 witness: column names of the transformed example table. -/
theorem c2_witness :
    (dropFirstColumn exampleTable).header = exampleTable.header.eraseIdx 0 :=
  c2_column_names exampleTable (by decide)

/-- Dropping the first column of a valid table with at least two columns
yields a valid table again. -/
theorem validTable_dropFirstColumn (t : Table) (hv : validTable t = true)
    (h2 : 2 ≤ t.header.length) : validTable (dropFirstColumn t) = true := by
  obtain ⟨hne, hlen, hph, hpr⟩ := validTable_parts t hv
  simp only [validTable, dropFirstColumn, Bool.and_eq_true, List.all_eq_true,
    beq_iff_eq, Bool.not_eq_true', List.isEmpty_eq_false]
  refine ⟨⟨⟨?_, ?_⟩, ?_⟩, ?_⟩
  · intro h0
    have hlen0 := congrArg List.length h0
    simp only [List.length_drop, List.length_nil] at hlen0
    omega
  · intro r hr
    obtain ⟨r0, hr0, rfl⟩ := List.mem_map.1 hr
    simp [List.length_drop, hlen r0 hr0]
  · intro f hf
    exact hph f (List.mem_of_mem_drop hf)
  · intro r hr f hf
    obtain ⟨r0, hr0, rfl⟩ := List.mem_map.1 hr
    exact hpr r0 hr0 f (List.mem_of_mem_drop hf)

/-- C3: for every valid input table, the run writes exactly the retained
columns; every retained header name and cell is the verbatim input string
shifted one position to the left, and when at least two columns remain the
written file parses back to exactly those unchanged strings. -/
theorem c3_cells_preserved (fs : String → Option String) (content : String)
    (t : Table) (h1 : fs input_file = some content)
    (h2 : parseCsv content = some t) (h3 : validTable t = true) :
    (runConvert fs).fs output_file = some (writeCsv (dropFirstColumn t)) ∧
    (∀ i : Nat, (dropFirstColumn t).header[i]? = t.header[i + 1]?) ∧
    (∀ j i : Nat, ((dropFirstColumn t).rows[j]?.bind (fun r => r[i]?)) =
      (t.rows[j]?.bind (fun r => r[i + 1]?))) ∧
    (2 ≤ (dropFirstColumn t).header.length →
      parseCsv (writeCsv (dropFirstColumn t)) = some (dropFirstColumn t)) := by
  refine ⟨?_, ?_, ?_, ?_⟩
  · rw [runConvert_success fs content t h1 h2]
    show (if output_file = output_file then some (writeCsv (dropFirstColumn t))
        else fs output_file) = some (writeCsv (dropFirstColumn t))
    rw [if_pos rfl]
  · intro i
    simp [dropFirstColumn, List.getElem?_drop, Nat.add_comm]
  · intro j i
    simp only [dropFirstColumn, List.getElem?_map]
    cases t.rows[j]? with
    | none => rfl
    | some r => simp [List.getElem?_drop, Nat.add_comm]
  · intro h4
    have hlen4 : 2 ≤ t.header.length := by
      simp only [dropFirstColumn, List.length_drop] at h4
      omega
    exact parseCsv_writeCsv (dropFirstColumn t)
      (validTable_dropFirstColumn t h3 hlen4) h4

/-- C3 witness: cell preservation at the spec's example, with concrete
indices. -/
theorem c3_witness :
    (runConvert exampleFs).fs output_file =
      some (writeCsv (dropFirstColumn exampleTable)) ∧
    (dropFirstColumn exampleTable).header[0]? = exampleTable.header[1]? ∧
    ((dropFirstColumn exampleTable).rows[0]?.bind (fun r => r[1]?)) =
      (exampleTable.rows[0]?.bind (fun r => r[2]?)) ∧
    parseCsv (writeCsv (dropFirstColumn exampleTable)) =
      some (dropFirstColumn exampleTable) := by
  obtain ⟨ha, hb, hc, hd⟩ := c3_cells_preserved exampleFs
    "A,B,C\n1,2,3\n4,5,6\n" exampleTable (by decide) (by decide) (by decide)
  exact ⟨ha, hb 0, hc 0 1, hd (by decide)⟩

/-- C4: no synthetic row-index column is written: for every data row, the
first field of the output row is the second field of the corresponding
input row. -/
theorem c4_no_index_column (fs : String → Option String) (content : String)
    (t : Table) (h1 : fs input_file = some content)
    (h2 : parseCsv content = some t) (h3 : validTable t = true) :
    (runConvert fs).fs output_file = some (writeCsv (dropFirstColumn t)) ∧
    ∀ j : Nat, ((dropFirstColumn t).rows[j]?.bind (fun r => r[0]?)) =
      (t.rows[j]?.bind (fun r => r[1]?)) := by
  refine ⟨?_, ?_⟩
  · rw [runConvert_success fs content t h1 h2]
    show (if output_file = output_file then some (writeCsv (dropFirstColumn t))
        else fs output_file) = some (writeCsv (dropFirstColumn t))
    rw [if_pos rfl]
  · intro j
    simp only [dropFirstColumn, List.getElem?_map]
    cases t.rows[j]? with
    | none => rfl
    | some r => simp [List.getElem?_drop]

/-- C4 witness: the first output field of the first data row at the
example. -/
theorem c4_witness :
    (runConvert exampleFs).fs output_file =
      some (writeCsv (dropFirstColumn exampleTable)) ∧
    ((dropFirstColumn exampleTable).rows[0]?.bind (fun r => r[0]?)) =
      (exampleTable.rows[0]?.bind (fun r => r[1]?)) := by
  obtain ⟨ha, hb⟩ := c4_no_index_column exampleFs
    "A,B,C\n1,2,3\n4,5,6\n" exampleTable (by decide) (by decide) (by decide)
  exact ⟨ha, hb 0⟩

/-- C5: on the spec's example input, whose lines are A,B,C then 1,2,3 then
4,5,6, the run succeeds and the destination file holds exactly the lines
B,C then 2,3 then 5,6. -/
theorem c5_round_trip_example :
    (runConvert exampleFs).exitOk = true ∧
    (runConvert exampleFs).fs output_file = some "B,C\n2,3\n5,6\n" ∧
    (splitOnChar '\n' (String.toList "B,C\n2,3\n5,6\n")).filter
        (fun l => !l.isEmpty) =
      [String.toList "B,C", String.toList "2,3", String.toList "5,6"] := by
  refine ⟨by decide, by decide, by decide⟩

/-- C6: the transform is purely positional: after one application the new
column at index 0 is the column at original index 1 (which exists), and a
second application removes that column, leaving exactly the columns from
original index 2 on. -/
theorem c6_purely_positional (t : Table) (h : 2 ≤ t.header.length) :
    (dropFirstColumn t).header[0]? = t.header[1]? ∧
    t.header[1]? ≠ none ∧
    (dropFirstColumn (dropFirstColumn t)).header =
      (dropFirstColumn t).header.eraseIdx 0 ∧
    dropFirstColumn (dropFirstColumn t) =
      ⟨t.header.drop 2, t.rows.map fun r => r.drop 2⟩ := by
  refine ⟨?_, ?_, ?_, ?_⟩
  · simp [dropFirstColumn, List.getElem?_drop]
  · have h1 : 1 < t.header.length := by omega
    rw [List.getElem?_eq_getElem h1]
    simp
  · have htail : ∀ l : List String, l.eraseIdx 0 = l.drop 1 := by
      intro l
      cases l <;> simp
    simp [dropFirstColumn, htail, List.drop_drop]
  · have hh : (t.header.drop 1).drop 1 = t.header.drop 2 := by
      simp [List.drop_drop]
    have hr : (t.rows.map fun r => r.drop 1).map (fun r => r.drop 1) =
        t.rows.map fun r => r.drop 2 := by
      rw [List.map_map]
      apply List.map_congr_left
      intro r _
      show (r.drop 1).drop 1 = r.drop 2
      simp [List.drop_drop]
    show (⟨(t.header.drop 1).drop 1,
      (t.rows.map fun r => r.drop 1).map fun r => r.drop 1⟩ : Table) =
        ⟨t.header.drop 2, t.rows.map fun r => r.drop 2⟩
    rw [hh, hr]

/-- C6 witness: positionality at the example table. -/
theorem c6_witness :
    (dropFirstColumn exampleTable).header[0]? = exampleTable.header[1]? ∧
    exampleTable.header[1]? ≠ none ∧
    (dropFirstColumn (dropFirstColumn exampleTable)).header =
      (dropFirstColumn exampleTable).header.eraseIdx 0 ∧
    dropFirstColumn (dropFirstColumn exampleTable) =
      ⟨exampleTable.header.drop 2, exampleTable.rows.map fun r => r.drop 2⟩ :=
  c6_purely_positional exampleTable (by decide)

/-- C7: a missing source file is a fatal error: the run fails, the file
system is completely unchanged (in particular at the destination path), and
the trace contains no write event. -/
theorem c7_missing_source (fs : String → Option String)
    (h : fs input_file = none) :
    (runConvert fs).exitOk = false ∧
    (runConvert fs).fs = fs ∧
    (runConvert fs).fs output_file = fs output_file ∧
    (runConvert fs).events.all (fun e => !isWriteEvent e) = true := by
  rw [runConvert_noRead fs h]
  exact ⟨rfl, rfl, rfl, rfl⟩

/-- C7 witness: the empty file system. -/
theorem c7_witness :
    (runConvert fun _ => none).exitOk = false ∧
    (runConvert fun _ => none).fs = (fun _ => none) ∧
    (runConvert fun _ => none).fs output_file = (fun _ => none) output_file ∧
    (runConvert fun _ => none).events.all (fun e => !isWriteEvent e) = true :=
  c7_missing_source (fun _ => none) rfl

/-- C8: on every successful run, exactly one console line is printed, it is
the confirmation message, that message contains the literal destination
path, and the print is the last of the three events, strictly after the
write of the destination file. -/
theorem c8_console_output (fs : String → Option String)
    (h : (runConvert fs).exitOk = true) :
    (runConvert fs).events.filter isPrintEvent =
      [Event.printLine confirmationMessage] ∧
    confirmationMessage =
      "The first column has been removed and the updated file is saved as \x27"
        ++ output_file ++ "\x27." ∧
    (runConvert fs).events.map isPrintEvent = [false, false, true] ∧
    (runConvert fs).events.map isWriteEvent = [false, true, false] ∧
    (runConvert fs).events[1]?.map eventPath = some output_file := by
  cases hfs : fs input_file with
  | none =>
    rw [runConvert_noRead fs hfs] at h
    exact absurd h (by simp)
  | some content =>
    cases hp : parseCsv content with
    | none =>
      rw [runConvert_badParse fs content hfs hp] at h
      exact absurd h (by simp)
    | some df =>
      rw [runConvert_success fs content df hfs hp]
      exact ⟨rfl, rfl, rfl, rfl, rfl⟩

/-- C8 witness: console behavior at the example run. -/
theorem c8_witness :
    (runConvert exampleFs).events.filter isPrintEvent =
      [Event.printLine confirmationMessage] ∧
    confirmationMessage =
      "The first column has been removed and the updated file is saved as \x27"
        ++ output_file ++ "\x27." ∧
    (runConvert exampleFs).events.map isPrintEvent = [false, false, true] ∧
    (runConvert exampleFs).events.map isWriteEvent = [false, true, false] ∧
    (runConvert exampleFs).events[1]?.map eventPath = some output_file :=
  c8_console_output exampleFs (by decide)

/-- C9: every run leaves the source contents (and every other path except
the destination) unchanged, every read in the trace targets the source,
and every write in the trace targets the destination. -/
theorem c9_read_only_source (fs : String → Option String) :
    (runConvert fs).fs input_file = fs input_file ∧
    (∀ p, p ≠ output_file → (runConvert fs).fs p = fs p) ∧
    (runConvert fs).events.all
      (fun e => !isWriteEvent e || eventPath e == output_file) = true ∧
    (runConvert fs).events.all
      (fun e => isWriteEvent e || isPrintEvent e ||
        eventPath e == input_file) = true := by
  have hio : input_file ≠ output_file := by decide
  cases hfs : fs input_file with
  | none =>
    rw [runConvert_noRead fs hfs]
    refine ⟨hfs, fun p _ => rfl, rfl, ?_⟩
    show (!false || false || (input_file == input_file)) && true = true
    simp
  | some content =>
    cases hp : parseCsv content with
    | none =>
      rw [runConvert_badParse fs content hfs hp]
      refine ⟨hfs, fun p _ => rfl, rfl, ?_⟩
      show (!false || false || (input_file == input_file)) && true = true
      simp
    | some df =>
      rw [runConvert_success fs content df hfs hp]
      refine ⟨?_, ?_, ?_, ?_⟩
      · show (if input_file = output_file then
            some (writeCsv (dropFirstColumn df)) else fs input_file) =
          some content
        rw [if_neg hio, hfs]
      · intro p hp2
        show (if p = output_file then _ else fs p) = fs p
        rw [if_neg hp2]
      · show (true && ((output_file == output_file) &&
          (true && true))) = true
        simp
      · show ((input_file == input_file) && (true && (true && true))) = true
        simp

/-- C9 witness: the frame property at the example run and a concrete
unrelated path. -/
theorem c9_witness :
    (runConvert exampleFs).fs input_file = exampleFs input_file ∧
    (runConvert exampleFs).fs "unrelated.csv" = exampleFs "unrelated.csv" ∧
    (runConvert exampleFs).events.all
      (fun e => !isWriteEvent e || eventPath e == output_file) = true ∧
    (runConvert exampleFs).events.all
      (fun e => isWriteEvent e || isPrintEvent e ||
        eventPath e == input_file) = true :=
  ⟨(c9_read_only_source exampleFs).1,
    (c9_read_only_source exampleFs).2.1 "unrelated.csv" (by decide),
    (c9_read_only_source exampleFs).2.2.1,
    (c9_read_only_source exampleFs).2.2.2⟩

/-- C10: a single-column input is not rejected: the run succeeds and the
destination receives the zero-column table, an empty header line followed
by one empty line per data row. -/
theorem c10_single_column (fs : String → Option String) (content : String)
    (t : Table) (h1 : fs input_file = some content)
    (h2 : parseCsv content = some t) (h3 : validTable t = true)
    (h4 : t.header.length = 1) :
    (runConvert fs).exitOk = true ∧
    (runConvert fs).fs output_file =
      some (List.asString (List.replicate (t.rows.length + 1) '\n')) := by
  obtain ⟨hne, hlen, hph, hpr⟩ := validTable_parts t h3
  rw [runConvert_success fs content t h1 h2]
  refine ⟨rfl, ?_⟩
  show (if output_file = output_file then some (writeCsv (dropFirstColumn t))
      else fs output_file) = _
  rw [if_pos rfl]
  have hh : t.header.drop 1 = [] := by
    apply List.length_eq_zero.mp
    simp [List.length_drop, h4]
  have hrows : (t.rows.map fun r => r.drop 1).map csvLine =
      List.replicate t.rows.length [] := by
    rw [List.map_map]
    apply List.eq_replicate_iff.mpr
    refine ⟨by simp, ?_⟩
    intro b hb
    obtain ⟨r, hr, rfl⟩ := List.mem_map.1 hb
    have hr0 : r.drop 1 = [] := by
      apply List.length_eq_zero.mp
      have := hlen r hr
      simp [List.length_drop, this, h4]
    show csvLine (r.drop 1) = []
    rw [hr0]
    rfl
  show some (writeCsv (dropFirstColumn t)) = _
  unfold writeCsv
  congr 1
  apply List.asString_inj.mpr
  show joinWith '\n' ((csvLine (t.header.drop 1) ::
    (t.rows.map fun r => r.drop 1).map csvLine) ++ [[]]) = _
  rw [hh, hrows]
  show joinWith '\n' (([] : List Char) ::
    (List.replicate t.rows.length [] ++ [[]])) = _
  rw [← List.replicate_succ', ← List.replicate_succ]
  rw [joinWith_replicate_nil]

/-- C10 witness: the header-A, rows 1 and 2 input yields three empty
lines. -/
theorem c10_witness :
    (runConvert singleColumnFs).exitOk = true ∧
    (runConvert singleColumnFs).fs output_file =
      some (List.asString (List.replicate (2 + 1) '\n')) :=
  c10_single_column singleColumnFs "A\n1\n2\n" ⟨["A"], [["1"], ["2"]]⟩
    (by decide) (by decide) (by decide) (by decide)
